import Mathlib

/-!
A shallow embedding of the 1DOF wind-turbine simulation loop of the NREL
ROSCO toolbox (WTC_toolbox/sim.py, class Sim, method sim_ws_series),
together with theorems about its behaviour.

Numbers are modelled as exact rationals.  The library constant np.pi is
embedded as the exact value of the IEEE-754 double that numpy exposes.
Raising an exception is modelled by Option: none is an aborted run.
Numpy arrays are modelled as lists of rationals, in-place element
assignment as List.set, and out-of-range indexing as a raised exception.
-/

/-- The value of np.pi: the IEEE-754 double nearest pi, as an exact
rational (884279719003555 / 2 ^ 48). -/
def np_pi : ℚ := 884279719003555 / 281474976710656

/-- rpm2RadSec = 2.0 * np.pi / 60.0 (sim.py line 21). -/
def rpm2RadSec : ℚ := 2 * np_pi / 60

/-- Modelled from the spec: the turbine object (TurbineParameters) comes
from turbine.py, which is not part of the simulation module.  sim.py reads
the fields TurbineName (print only, omitted), RotorRad, Ng (gearbox
ratio), J (rotor inertia), rho (air density), the interpolated
torque-coefficient surface Cq.interp_surface (here Cq_interp_surface,
taking blade pitch and tip-speed ratio), and the aerodynamic evaluator
cc_rotor.evaluate, modelled as an Option-valued function of
(wind speed, rotor speed in rpm, blade pitch) returning the torque
coefficient, none meaning the evaluator raises.  The spec lists a gearbox
efficiency and a generator efficiency among TurbineParameters; sim.py
never reads them, and they are carried here so that independence from
them can be stated. -/
structure Turbine where
  RotorRad : ℚ
  Ng : ℚ
  J : ℚ
  rho : ℚ
  Cq_interp_surface : ℚ → ℚ → ℚ
  cc_rotor_evaluate : ℚ → ℚ → ℚ → Option ℚ
  gearbox_eff : ℚ
  generator_eff : ℚ

/-- The controller interface object: call_controller takes
(time, dt, blade pitch, generator speed, rotor speed, wind speed) and
returns the commanded (generator torque, blade pitch)
(sim.py line 108). -/
structure ControllerInterface where
  call_controller : ℚ → ℚ → ℚ → ℚ → ℚ → ℚ → ℚ × ℚ

/-- The simulator object: a turbine, a controller interface, and the two
efficiency attributes set by the constructor. -/
structure Sim where
  turbine : Turbine
  controller_int : ControllerInterface
  gb_eff : ℚ
  gen_eff : ℚ

/-- The constructor Sim.__init__ (sim.py lines 28-37): stores the turbine
and the controller interface and hard-codes gb_eff = 0.95 and
gen_eff = 0.95 (the TOTAL TEMPORARY HACK comment), ignoring whatever
efficiencies the turbine object carries. -/
def Sim.init (turbine : Turbine) (controller_int : ControllerInterface) : Sim :=
  { turbine := turbine, controller_int := controller_int, gb_eff := 0.95, gen_eff := 0.95 }

/-- The six output arrays mutated by the timestep loop
(sim.py lines 67-72). -/
structure LoopSt where
  bld_pitch : List ℚ
  rot_speed : List ℚ
  gen_speed : List ℚ
  aero_torque : List ℚ
  gen_torque : List ℚ
  gen_power : List ℚ
deriving DecidableEq, Inhabited

/-- The arrays as declared before the loop (sim.py lines 67-72):
np.ones_like(t_array) times the initial pitch, the initial rotor speed
converted from rpm to rad/s, the initial rotor speed times the gearbox
ratio, 1000.0, 1 and 0.0 respectively, where n is the length of
t_array. -/
def initState (n : ℕ) (sim : Sim) (rotor_rpm_init init_pitch : ℚ) : LoopSt :=
  { bld_pitch := List.replicate n init_pitch
    rot_speed := List.replicate n (rotor_rpm_init * rpm2RadSec)
    gen_speed := List.replicate n (rotor_rpm_init * sim.turbine.Ng)
    aero_torque := List.replicate n 1000
    gen_torque := List.replicate n 1
    gen_power := List.replicate n 0 }

/-- The torque coefficient loaded at a loop step (sim.py lines 91-99):
with the interpolated tables, cq = Cq.interp_surface(pitch, tsr) with
tsr = rot_speed * RotorRad / ws; otherwise a call to cc_rotor.evaluate
with the rotor speed converted back to rpm, which may raise (none). -/
def cq_at (sim : Sim) (use_interpolated : Bool) (ws rot_prev pitch_prev : ℚ) : Option ℚ :=
  if use_interpolated then
    some (sim.turbine.Cq_interp_surface pitch_prev (rot_prev * sim.turbine.RotorRad / ws))
  else
    sim.turbine.cc_rotor_evaluate ws (rot_prev / rpm2RadSec) pitch_prev

/-- The in-place writes of loop step i once ws and cq are in hand
(sim.py lines 101-111): aerodynamic torque, forward-Euler rotor speed
update, generator speed, the controller call, and the generator power. -/
def stepWrite (sim : Sim) (dt : ℚ) (t_array : List ℚ) (st : LoopSt) (i : ℕ)
    (ws cq : ℚ) : LoopSt :=
  let t := t_array.getD i 0
  let aero_i := 0.5 * sim.turbine.rho * (np_pi * sim.turbine.RotorRad ^ 2) * cq *
      sim.turbine.RotorRad * ws ^ 2
  let rot_i := st.rot_speed.getD (i - 1) 0 +
      (dt / sim.turbine.J) * (aero_i * sim.gb_eff - sim.turbine.Ng * st.gen_torque.getD (i - 1) 0)
  let gen_i := rot_i * sim.turbine.Ng
  let cmd := sim.controller_int.call_controller t dt (st.bld_pitch.getD (i - 1) 0) gen_i rot_i ws
  let power_i := gen_i * np_pi / 30 * cmd.1 * sim.gen_eff
  { bld_pitch := st.bld_pitch.set i cmd.2
    rot_speed := st.rot_speed.set i rot_i
    gen_speed := st.gen_speed.set i gen_i
    aero_torque := st.aero_torque.set i aero_i
    gen_torque := st.gen_torque.set i cmd.1
    gen_power := st.gen_power.set i power_i }

/-- One iteration of the timestep loop (sim.py lines 86-111): index 0 is
skipped; otherwise ws_array[i] is read (an out-of-range index raises),
the torque coefficient is loaded (the evaluator may raise), and the
writes of stepWrite are performed. -/
def simStep (sim : Sim) (dt : ℚ) (use_interpolated : Bool) (t_array ws_array : List ℚ)
    (st : LoopSt) (i : ℕ) : Option LoopSt :=
  if i = 0 then some st
  else
    match ws_array.get? i with
    | none => none
    | some ws =>
      (cq_at sim use_interpolated ws (st.rot_speed.getD (i - 1) 0)
          (st.bld_pitch.getD (i - 1) 0)).map (stepWrite sim dt t_array st i ws)

/-- The loop for i in range(k): runUpTo ... k runs simStep at indices
0, 1, ..., k - 1, propagating a raised exception. -/
def runUpTo (sim : Sim) (dt : ℚ) (use_interpolated : Bool) (t_array ws_array : List ℚ)
    (st0 : LoopSt) : ℕ → Option LoopSt
  | 0 => some st0
  | k + 1 => (runUpTo sim dt use_interpolated t_array ws_array st0 k).bind
      (fun st => simStep sim dt use_interpolated t_array ws_array st k)

/-- The setup probe of the aerodynamic evaluator (sim.py lines 76-83,
the try block): ws_array[1] is read (an out-of-range index raises inside
the try and is caught like an evaluator failure), then cc_rotor.evaluate
is attempted at the initial operating point.  none means the try block
raised, so use_interpolated is set. -/
def setupEvalResult (sim : Sim) (ws_array : List ℚ) (rot0 pitch0 : ℚ) : Option ℚ :=
  match ws_array.get? 1 with
  | none => none
  | some w1 => sim.turbine.cc_rotor_evaluate w1 (rot0 / rpm2RadSec) pitch0

/-- The use_interpolated flag in terms of the run inputs (for n at least
2 the array entries probed at setup hold the initial conditions). -/
def useInterpolated (sim : Sim) (ws_array : List ℚ) (rotor_rpm_init init_pitch : ℚ) : Bool :=
  (setupEvalResult sim ws_array (rotor_rpm_init * rpm2RadSec) init_pitch).isNone

/-- The record of a completed run (sim.py lines 113-121). -/
structure SimOut where
  bld_pitch : List ℚ
  rot_speed : List ℚ
  gen_speed : List ℚ
  aero_torque : List ℚ
  gen_torque : List ℚ
  gen_power : List ℚ
  t_array : List ℚ
  ws_array : List ℚ
deriving DecidableEq, Inhabited

/-- Sim.sim_ws_series (sim.py lines 40-121): dt is the difference of the
first two time samples (an index error aborts when t_array is shorter
than 2), the output arrays are declared, the evaluator probe fixes
use_interpolated, the loop runs over every index of t_array, and the
arrays are saved.  none is a run aborted by an uncaught exception. -/
def sim_ws_series (sim : Sim) (t_array ws_array : List ℚ)
    (rotor_rpm_init init_pitch : ℚ) : Option SimOut :=
  match t_array.get? 1, t_array.get? 0 with
  | some t1, some t0 =>
    let dt := t1 - t0
    let n := t_array.length
    let st0 := initState n sim rotor_rpm_init init_pitch
    let use_interpolated :=
      (setupEvalResult sim ws_array (st0.rot_speed.getD 0 0) (st0.bld_pitch.getD 0 0)).isNone
    (runUpTo sim dt use_interpolated t_array ws_array st0 n).map
      (fun st =>
        { bld_pitch := st.bld_pitch
          rot_speed := st.rot_speed
          gen_speed := st.gen_speed
          aero_torque := st.aero_torque
          gen_torque := st.gen_torque
          gen_power := st.gen_power
          t_array := t_array
          ws_array := ws_array })
  | _, _ => none

/-- A concrete turbine for concrete runs: unit radius, inertia and air
density, gearbox ratio 97, a constant-zero interpolated torque
coefficient surface, and an evaluator that always raises. -/
def tbA : Turbine :=
  { RotorRad := 1, Ng := 97, J := 1, rho := 1,
    Cq_interp_surface := fun _ _ => 0,
    cc_rotor_evaluate := fun _ _ _ => none,
    gearbox_eff := 9 / 10, generator_eff := 9 / 10 }

/-- A concrete controller commanding constant torque 2 and pitch 3. -/
def ctrlA : ControllerInterface := { call_controller := fun _ _ _ _ _ _ => (2, 3) }

/-- The concrete simulator built from tbA and ctrlA. -/
def simA : Sim := Sim.init tbA ctrlA

/-- A concrete three-sample time array. -/
def tA : List ℚ := [0, 1, 2]

/-- A concrete constant wind array. -/
def wsA : List ℚ := [10, 10, 10]

/-- A concrete wind array containing a zero wind speed. -/
def wsZ : List ℚ := [10, 0, 10]

/-- The completed concrete run on wsA. -/
def outA : SimOut := (sim_ws_series simA tA wsA 10 0).getD default

/-- The number of cc_rotor.evaluate attempts made by loop step i: none at
the skipped index 0, none when the step raises at the ws_array[i] read
(before the coefficient load), none on the interpolated branch, and
exactly one otherwise (sim.py lines 95-99). -/
def stepEvalCalls (use_interpolated : Bool) (ws_array : List ℚ) (i : ℕ) : ℕ :=
  if i = 0 then 0
  else if use_interpolated then 0
  else if (ws_array.get? i).isSome then 1 else 0

/-- The number of cc_rotor.evaluate attempts made by the first k loop
iterations: an iteration contributes only if the loop actually reaches it
(no earlier iteration raised). -/
def runEvalCalls (sim : Sim) (dt : ℚ) (use_interpolated : Bool) (t_array ws_array : List ℚ)
    (st0 : LoopSt) : ℕ → ℕ
  | 0 => 0
  | k + 1 => runEvalCalls sim dt use_interpolated t_array ws_array st0 k +
      (match runUpTo sim dt use_interpolated t_array ws_array st0 k with
       | none => 0
       | some _ => stepEvalCalls use_interpolated ws_array k)

/-- The total number of cc_rotor.evaluate attempts made by a run of
sim_ws_series: one at the setup probe whenever ws_array[1] is readable
(sim.py line 77), plus the attempts of the loop iterations. -/
def sim_ws_series_evalCalls (sim : Sim) (t_array ws_array : List ℚ)
    (rotor_rpm_init init_pitch : ℚ) : ℕ :=
  match t_array.get? 1, t_array.get? 0 with
  | some t1, some t0 =>
    let dt := t1 - t0
    let n := t_array.length
    let st0 := initState n sim rotor_rpm_init init_pitch
    let use_interpolated :=
      (setupEvalResult sim ws_array (st0.rot_speed.getD 0 0) (st0.bld_pitch.getD 0 0)).isNone
    (if (ws_array.get? 1).isSome then 1 else 0) +
      runEvalCalls sim dt use_interpolated t_array ws_array st0 n
  | _, _ => 0

/-- The simulator with the aerodynamic evaluator of its turbine replaced,
everything else unchanged. -/
def withEvaluator (sim : Sim) (g : ℚ → ℚ → ℚ → Option ℚ) : Sim :=
  { sim with turbine := { sim.turbine with cc_rotor_evaluate := g } }

/-- All six loop arrays have length n. -/
def lengthsEq (st : LoopSt) (n : ℕ) : Prop :=
  st.bld_pitch.length = n ∧ st.rot_speed.length = n ∧ st.gen_speed.length = n ∧
  st.aero_torque.length = n ∧ st.gen_torque.length = n ∧ st.gen_power.length = n

/-- Index j of every loop array holds its declared initial value. -/
def initIdx (sim : Sim) (rotor_rpm_init init_pitch : ℚ) (st : LoopSt) (j : ℕ) : Prop :=
  st.bld_pitch.getD j 0 = init_pitch ∧
  st.rot_speed.getD j 0 = rotor_rpm_init * rpm2RadSec ∧
  st.gen_speed.getD j 0 = rotor_rpm_init * sim.turbine.Ng ∧
  st.aero_torque.getD j 0 = 1000 ∧
  st.gen_torque.getD j 0 = 1 ∧
  st.gen_power.getD j 0 = 0

/-- The values recorded at index i satisfy the update equations of loop
step i, each in terms of the values recorded at index i - 1: a torque
coefficient was obtained from the previous rotor speed and previous
pitch, the aerodynamic torque follows from it, the rotor speed is the
forward-Euler update, the generator speed is the rotor speed scaled by
the gearbox ratio, the commanded torque and pitch are the controller
response to the just-updated speeds and the previous pitch, and the
generator power follows the pinned power formula. -/
def stepRec (sim : Sim) (dt : ℚ) (use_interpolated : Bool) (t_array ws_array : List ℚ)
    (st : LoopSt) (i : ℕ) : Prop :=
  ∃ wsi cq, ws_array.get? i = some wsi ∧
    cq_at sim use_interpolated wsi (st.rot_speed.getD (i - 1) 0) (st.bld_pitch.getD (i - 1) 0)
      = some cq ∧
    st.aero_torque.getD i 0 = 0.5 * sim.turbine.rho * (np_pi * sim.turbine.RotorRad ^ 2) * cq *
      sim.turbine.RotorRad * wsi ^ 2 ∧
    st.rot_speed.getD i 0 = st.rot_speed.getD (i - 1) 0 + (dt / sim.turbine.J) *
      (st.aero_torque.getD i 0 * sim.gb_eff - sim.turbine.Ng * st.gen_torque.getD (i - 1) 0) ∧
    st.gen_speed.getD i 0 = st.rot_speed.getD i 0 * sim.turbine.Ng ∧
    st.gen_torque.getD i 0 = (sim.controller_int.call_controller (t_array.getD i 0) dt
      (st.bld_pitch.getD (i - 1) 0) (st.gen_speed.getD i 0) (st.rot_speed.getD i 0) wsi).1 ∧
    st.bld_pitch.getD i 0 = (sim.controller_int.call_controller (t_array.getD i 0) dt
      (st.bld_pitch.getD (i - 1) 0) (st.gen_speed.getD i 0) (st.rot_speed.getD i 0) wsi).2 ∧
    st.gen_power.getD i 0 = st.gen_speed.getD i 0 * np_pi / 30 * st.gen_torque.getD i 0 *
      sim.gen_eff

/-- Reading back the element just written. -/
theorem getD_set_same {l : List ℚ} {i : ℕ} (h : i < l.length) (a : ℚ) :
    (l.set i a).getD i 0 = a := by
  rw [List.getD_eq_getD_get?, List.get?_set_eq_of_lt _ h, Option.getD_some]

/-- Writing one element leaves every other element unchanged. -/
theorem getD_set_diff {l : List ℚ} {i j : ℕ} (h : i ≠ j) (a : ℚ) :
    (l.set i a).getD j 0 = l.getD j 0 := by
  rw [List.getD_eq_getD_get?, List.get?_set_ne _ _ h, ← List.getD_eq_getD_get?]

/-- Every in-range element of a replicated list is the replicated value. -/
theorem getD_replicate_of_lt {n j : ℕ} (h : j < n) (a : ℚ) :
    (List.replicate n a).getD j 0 = a := by
  rw [List.getD_eq_getElem _ _ (by simpa using h)]
  simp

/-- An Option known to be some equals some of its getD. -/
theorem eq_some_getD {α : Type} (o : Option α) (d : α) (h : o.isSome = true) :
    o = some (o.getD d) := by
  cases o with
  | none => cases h
  | some a => rfl

/-- Loop index 0 is skipped. -/
theorem simStep_zero (sim : Sim) (dt : ℚ) (ui : Bool) (t_array ws_array : List ℚ)
    (st : LoopSt) : simStep sim dt ui t_array ws_array st 0 = some st := rfl

/-- Inversion of a successful loop step at a nonzero index: the wind
speed was readable, a torque coefficient was obtained from the previous
rotor speed and previous pitch, and the result is the stepWrite record of
writes. -/
theorem simStep_some_inv {sim : Sim} {dt : ℚ} {ui : Bool} {t_array ws_array : List ℚ}
    {st st2 : LoopSt} {i : ℕ} (hi : i ≠ 0)
    (h : simStep sim dt ui t_array ws_array st i = some st2) :
    ∃ wsi cq, ws_array.get? i = some wsi ∧
      cq_at sim ui wsi (st.rot_speed.getD (i - 1) 0) (st.bld_pitch.getD (i - 1) 0) = some cq ∧
      st2 = stepWrite sim dt t_array st i wsi cq := by
  unfold simStep at h
  rw [if_neg hi] at h
  cases hws : ws_array.get? i with
  | none => rw [hws] at h; cases h
  | some wsi =>
    rw [hws] at h
    rcases Option.map_eq_some'.mp h with ⟨cq, hcq, hst⟩
    exact ⟨wsi, cq, rfl, hcq, hst.symm⟩

/-- A successful loop step at a nonzero in-range index, forward
direction: given the wind speed and the coefficient, the step succeeds
with the stepWrite record. -/
theorem simStep_eq_of (sim : Sim) (dt : ℚ) (ui : Bool) (t_array ws_array : List ℚ)
    (st : LoopSt) (i : ℕ) (hi : i ≠ 0) (wsi cq : ℚ) (hws : ws_array.get? i = some wsi)
    (hcq : cq_at sim ui wsi (st.rot_speed.getD (i - 1) 0) (st.bld_pitch.getD (i - 1) 0)
      = some cq) :
    simStep sim dt ui t_array ws_array st i = some (stepWrite sim dt t_array st i wsi cq) := by
  unfold simStep
  rw [if_neg hi, hws]
  show (cq_at sim ui wsi (st.rot_speed.getD (i - 1) 0) (st.bld_pitch.getD (i - 1) 0)).map
      (stepWrite sim dt t_array st i wsi) = _
  rw [hcq, Option.map_some']

/-- The declared arrays all have length n. -/
theorem initState_lengths (n : ℕ) (sim : Sim) (r p : ℚ) :
    lengthsEq (initState n sim r p) n := by
  simp [initState, lengthsEq]

/-- Every in-range index of the declared arrays holds its initial
value. -/
theorem initState_initIdx (n : ℕ) (sim : Sim) (r p : ℚ) {j : ℕ} (hj : j < n) :
    initIdx sim r p (initState n sim r p) j := by
  refine ⟨?_, ?_, ?_, ?_, ?_, ?_⟩ <;>
    simp only [initState] <;> exact getD_replicate_of_lt hj _

/-- A step write preserves the lengths of all six arrays. -/
theorem stepWrite_lengths (sim : Sim) (dt : ℚ) (t_array : List ℚ) (st : LoopSt) (i : ℕ)
    (ws cq : ℚ) {n : ℕ} (h : lengthsEq st n) :
    lengthsEq (stepWrite sim dt t_array st i ws cq) n := by
  obtain ⟨h1, h2, h3, h4, h5, h6⟩ := h
  exact ⟨by simp [stepWrite, h1], by simp [stepWrite, h2], by simp [stepWrite, h3],
    by simp [stepWrite, h4], by simp [stepWrite, h5], by simp [stepWrite, h6]⟩

/-- A step write at index i leaves every index other than i unchanged in
all six arrays. -/
theorem stepWrite_getD_ne (sim : Sim) (dt : ℚ) (t_array : List ℚ) (st : LoopSt) (i : ℕ)
    (ws cq : ℚ) {j : ℕ} (h : i ≠ j) :
    (stepWrite sim dt t_array st i ws cq).bld_pitch.getD j 0 = st.bld_pitch.getD j 0 ∧
    (stepWrite sim dt t_array st i ws cq).rot_speed.getD j 0 = st.rot_speed.getD j 0 ∧
    (stepWrite sim dt t_array st i ws cq).gen_speed.getD j 0 = st.gen_speed.getD j 0 ∧
    (stepWrite sim dt t_array st i ws cq).aero_torque.getD j 0 = st.aero_torque.getD j 0 ∧
    (stepWrite sim dt t_array st i ws cq).gen_torque.getD j 0 = st.gen_torque.getD j 0 ∧
    (stepWrite sim dt t_array st i ws cq).gen_power.getD j 0 = st.gen_power.getD j 0 := by
  refine ⟨?_, ?_, ?_, ?_, ?_, ?_⟩ <;> simp only [stepWrite] <;> exact getD_set_diff h _

/-- The state written by loop step i satisfies the update equations of
step i. -/
theorem stepWrite_stepRec (sim : Sim) (dt : ℚ) (ui : Bool) (t_array ws_array : List ℚ)
    (st : LoopSt) (i : ℕ) (wsi cq : ℚ) {n : ℕ} (hlen : lengthsEq st n) (hin : i < n)
    (hi : i ≠ 0) (hws : ws_array.get? i = some wsi)
    (hcq : cq_at sim ui wsi (st.rot_speed.getD (i - 1) 0) (st.bld_pitch.getD (i - 1) 0)
      = some cq) :
    stepRec sim dt ui t_array ws_array (stepWrite sim dt t_array st i wsi cq) i := by
  obtain ⟨hL1, hL2, hL3, hL4, hL5, hL6⟩ := hlen
  have hne : i ≠ i - 1 := by omega
  have h1 : i < st.bld_pitch.length := by omega
  have h2 : i < st.rot_speed.length := by omega
  have h3 : i < st.gen_speed.length := by omega
  have h4 : i < st.aero_torque.length := by omega
  have h5 : i < st.gen_torque.length := by omega
  have h6 : i < st.gen_power.length := by omega
  refine ⟨wsi, cq, hws, ?_, ?_, ?_, ?_, ?_, ?_, ?_⟩
  · simp only [stepWrite]
    rw [getD_set_diff hne, getD_set_diff hne]
    exact hcq
  · simp only [stepWrite]
    rw [getD_set_same h4]
  · simp only [stepWrite]
    rw [getD_set_same h2, getD_set_diff hne, getD_set_same h4, getD_set_diff hne]
  · simp only [stepWrite]
    rw [getD_set_same h3, getD_set_same h2]
  · simp only [stepWrite]
    rw [getD_set_same h5, getD_set_diff hne, getD_set_same h3, getD_set_same h2]
  · simp only [stepWrite]
    rw [getD_set_same h1, getD_set_diff hne, getD_set_same h3, getD_set_same h2]
  · simp only [stepWrite]
    rw [getD_set_same h6, getD_set_same h3, getD_set_same h5]

/-- The loop invariant: after the first k iterations starting from the
declared arrays, all six arrays still have length n, every index not yet
visited (and index 0, which is skipped) still holds its initial value,
and every visited index satisfies the update equations of its step. -/
theorem runUpTo_invariant (sim : Sim) (dt : ℚ) (ui : Bool) (t_array ws_array : List ℚ)
    (n : ℕ) (r p : ℚ) :
    ∀ k, k ≤ n → ∀ st,
      runUpTo sim dt ui t_array ws_array (initState n sim r p) k = some st →
      lengthsEq st n ∧
      (∀ j, j < n → k ≤ j → initIdx sim r p st j) ∧
      (0 < n → initIdx sim r p st 0) ∧
      (∀ j, 1 ≤ j → j < k → stepRec sim dt ui t_array ws_array st j) := by
  intro k
  induction k with
  | zero =>
    intro _ st hst
    simp only [runUpTo] at hst
    obtain rfl := Option.some.inj hst
    exact ⟨initState_lengths n sim r p,
      fun j hj _ => initState_initIdx n sim r p hj,
      fun hn => initState_initIdx n sim r p hn,
      fun j hj1 hj2 => ((by omega : False)).elim⟩
  | succ k ih =>
    intro hk st hst
    simp only [runUpTo] at hst
    rcases Option.bind_eq_some.mp hst with ⟨st1, hrun1, hstep⟩
    obtain ⟨ihL, ihU, ih0, ihR⟩ := ih (by omega) st1 hrun1
    by_cases hk0 : k = 0
    · subst hk0
      rw [simStep_zero] at hstep
      obtain rfl := Option.some.inj hstep
      refine ⟨ihL, fun j hj _ => ihU j hj (by omega), ih0,
        fun j hj1 hj2 => ((by omega : False)).elim⟩
    · rcases simStep_some_inv hk0 hstep with ⟨wsk, cq, hws, hcq, rfl⟩
      have hkn : k < n := by omega
      refine ⟨stepWrite_lengths sim dt t_array st1 k wsk cq ihL, ?_, ?_, ?_⟩
      · intro j hj hkj
        have hne : k ≠ j := by omega
        obtain ⟨e1, e2, e3, e4, e5, e6⟩ := stepWrite_getD_ne sim dt t_array st1 k wsk cq hne
        obtain ⟨u1, u2, u3, u4, u5, u6⟩ := ihU j hj (by omega)
        exact ⟨e1.trans u1, e2.trans u2, e3.trans u3, e4.trans u4, e5.trans u5, e6.trans u6⟩
      · intro hn
        obtain ⟨e1, e2, e3, e4, e5, e6⟩ :=
          stepWrite_getD_ne sim dt t_array st1 k wsk cq hk0
        obtain ⟨u1, u2, u3, u4, u5, u6⟩ := ih0 hn
        exact ⟨e1.trans u1, e2.trans u2, e3.trans u3, e4.trans u4, e5.trans u5, e6.trans u6⟩
      · intro j hj1 hj2
        by_cases hjk : j = k
        · subst hjk
          exact stepWrite_stepRec sim dt ui t_array ws_array st1 j wsk cq ihL hkn hk0 hws hcq
        · have hne : k ≠ j := fun h => hjk h.symm
          have hne1 : k ≠ j - 1 := by omega
          obtain ⟨e1, e2, e3, e4, e5, e6⟩ := stepWrite_getD_ne sim dt t_array st1 k wsk cq hne
          obtain ⟨f1, f2, f3, f4, f5, f6⟩ := stepWrite_getD_ne sim dt t_array st1 k wsk cq hne1
          obtain ⟨wsj, cqj, hwsj, hcqj, ha, hr, hg, hq, hb, hp⟩ := ihR j hj1 (by omega)
          refine ⟨wsj, cqj, hwsj, ?_, ?_, ?_, ?_, ?_, ?_, ?_⟩
          · rw [f2, f1]; exact hcqj
          · rw [e4]; exact ha
          · rw [e2, f2, e4, f5]; exact hr
          · rw [e3, e2]; exact hg
          · rw [e5, f1, e3, e2]; exact hq
          · rw [e1, f1, e3, e2]; exact hb
          · rw [e6, e3, e5]; exact hp

/-- Inversion of a completed run: the time array had at least two
samples, the loop completed over all indices with dt the difference of
the first two time samples and the setup-probe flag, and the saved
series are the loop arrays together with the two input arrays. -/
theorem sim_ws_series_some_inv {sim : Sim} {t_array ws_array : List ℚ} {r p : ℚ}
    {out : SimOut} (h : sim_ws_series sim t_array ws_array r p = some out) :
    2 ≤ t_array.length ∧
    ∃ st, runUpTo sim (t_array.getD 1 0 - t_array.getD 0 0)
        (useInterpolated sim ws_array r p) t_array ws_array
        (initState t_array.length sim r p) t_array.length = some st ∧
      out.bld_pitch = st.bld_pitch ∧ out.rot_speed = st.rot_speed ∧
      out.gen_speed = st.gen_speed ∧ out.aero_torque = st.aero_torque ∧
      out.gen_torque = st.gen_torque ∧ out.gen_power = st.gen_power ∧
      out.t_array = t_array ∧ out.ws_array = ws_array := by
  unfold sim_ws_series at h
  cases h1 : t_array.get? 1 with
  | none => rw [h1] at h; cases h
  | some t1 =>
    cases h0 : t_array.get? 0 with
    | none => rw [h1, h0] at h; cases h
    | some t0 =>
      rw [h1, h0] at h
      dsimp only at h
      have hlen2 : 2 ≤ t_array.length := by
        have := (List.get?_eq_some.mp h1).1
        omega
      have e1 : (initState t_array.length sim r p).rot_speed.getD 0 0 = r * rpm2RadSec :=
        getD_replicate_of_lt (by omega) _
      have e2 : (initState t_array.length sim r p).bld_pitch.getD 0 0 = p :=
        getD_replicate_of_lt (by omega) _
      rw [e1, e2] at h
      have hgd1 : t_array.getD 1 0 = t1 := by
        rw [List.getD_eq_getD_get?, h1, Option.getD_some]
      have hgd0 : t_array.getD 0 0 = t0 := by
        rw [List.getD_eq_getD_get?, h0, Option.getD_some]
      rcases Option.map_eq_some'.mp h with ⟨st, hrun, hout⟩
      refine ⟨hlen2, st, ?_, ?_⟩
      · rw [hgd1, hgd0]
        exact hrun
      · rw [← hout]
        exact ⟨rfl, rfl, rfl, rfl, rfl, rfl, rfl, rfl⟩

/-- On the interpolated branch a loop iteration never raises as long as
the wind-speed array covers the index. -/
theorem runUpTo_isSome_of_interp (sim : Sim) (dt : ℚ) (t_array ws_array : List ℚ)
    (st0 : LoopSt) (n : ℕ) (hn : n ≤ ws_array.length) :
    ∀ k, k ≤ n → (runUpTo sim dt true t_array ws_array st0 k).isSome = true := by
  intro k
  induction k with
  | zero => intro _; simp [runUpTo]
  | succ k ih =>
    intro hk
    rcases Option.isSome_iff_exists.mp (ih (by omega)) with ⟨st, hst⟩
    simp only [runUpTo, hst, Option.some_bind]
    by_cases hk0 : k = 0
    · subst hk0
      rw [simStep_zero]
      rfl
    · cases hw : ws_array.get? k with
      | none =>
        have := List.get?_eq_none.mp hw
        omega
      | some w =>
        unfold simStep
        rw [if_neg hk0, hw]
        simp [cq_at]

/-- A run on the interpolated branch completes whenever the time array
has at least two samples and the wind array is at least as long: no
input validation can abort it, zero wind speeds included. -/
theorem sim_ws_series_isSome_of_interp (sim : Sim) (t_array ws_array : List ℚ) (r p : ℚ)
    (h2 : 2 ≤ t_array.length) (hlen : t_array.length ≤ ws_array.length)
    (hsetup : useInterpolated sim ws_array r p = true) :
    (sim_ws_series sim t_array ws_array r p).isSome = true := by
  cases h1 : t_array.get? 1 with
  | none =>
    have := List.get?_eq_none.mp h1
    omega
  | some t1 =>
    cases h0 : t_array.get? 0 with
    | none =>
      have := List.get?_eq_none.mp h0
      omega
    | some t0 =>
      unfold sim_ws_series
      rw [h1, h0]
      dsimp only
      have e1 : (initState t_array.length sim r p).rot_speed.getD 0 0 = r * rpm2RadSec :=
        getD_replicate_of_lt (by omega) _
      have e2 : (initState t_array.length sim r p).bld_pitch.getD 0 0 = p :=
        getD_replicate_of_lt (by omega) _
      rw [e1, e2]
      unfold useInterpolated at hsetup
      rw [hsetup]
      rcases Option.isSome_iff_exists.mp
        (runUpTo_isSome_of_interp sim (t1 - t0) t_array ws_array
          (initState t_array.length sim r p) t_array.length hlen t_array.length le_rfl)
        with ⟨st, hst⟩
      rw [hst]
      rfl

/-- The six saved series of a completed run, as a loop state. -/
def SimOut.toLoop (o : SimOut) : LoopSt :=
  { bld_pitch := o.bld_pitch, rot_speed := o.rot_speed, gen_speed := o.gen_speed,
    aero_torque := o.aero_torque, gen_torque := o.gen_torque, gen_power := o.gen_power }

/-- Characterization of a completed run: all saved series have the
length of the time array, index 0 holds the initial values, every index
from 1 on satisfies the update equations of its step, and the saved time
and wind arrays are the inputs. -/
theorem sim_ws_series_spec {sim : Sim} {t_array ws_array : List ℚ} {r p : ℚ} {out : SimOut}
    (h : sim_ws_series sim t_array ws_array r p = some out) :
    lengthsEq out.toLoop t_array.length ∧
    initIdx sim r p out.toLoop 0 ∧
    (∀ i, 1 ≤ i → i < t_array.length →
      stepRec sim (t_array.getD 1 0 - t_array.getD 0 0) (useInterpolated sim ws_array r p)
        t_array ws_array out.toLoop i) ∧
    out.t_array = t_array ∧ out.ws_array = ws_array := by
  obtain ⟨hlen2, st, hrun, c1, c2, c3, c4, c5, c6, c7, c8⟩ := sim_ws_series_some_inv h
  have hout : out.toLoop = st := by
    unfold SimOut.toLoop
    rw [c1, c2, c3, c4, c5, c6]
  obtain ⟨hL, hU, h0, hR⟩ := runUpTo_invariant sim (t_array.getD 1 0 - t_array.getD 0 0)
    (useInterpolated sim ws_array r p) t_array ws_array t_array.length r p
    t_array.length le_rfl st hrun
  rw [hout]
  exact ⟨hL, h0 (by omega), fun i hi1 hi2 => hR i hi1 hi2, c7, c8⟩

/-- On the interpolated branch the loop makes no evaluator attempt. -/
theorem runEvalCalls_interp (sim : Sim) (dt : ℚ) (t_array ws_array : List ℚ)
    (st0 : LoopSt) : ∀ k, runEvalCalls sim dt true t_array ws_array st0 k = 0 := by
  intro k
  induction k with
  | zero => rfl
  | succ k ih =>
    unfold runEvalCalls
    rw [ih]
    cases runUpTo sim dt true t_array ws_array st0 k with
    | none => rfl
    | some st =>
      have : stepEvalCalls true ws_array k = 0 := by
        unfold stepEvalCalls
        by_cases hk : k = 0 <;> simp [hk]
      simp [this]

/-- When the setup probe of the evaluator is reached and raises, the
whole run makes exactly one evaluator attempt: the probe itself. -/
theorem sim_ws_series_evalCalls_one (sim : Sim) (t_array ws_array : List ℚ) (r p : ℚ)
    (h2 : 2 ≤ t_array.length) (hws1 : (ws_array.get? 1).isSome = true)
    (hsetup : setupEvalResult sim ws_array (r * rpm2RadSec) p = none) :
    sim_ws_series_evalCalls sim t_array ws_array r p = 1 := by
  cases h1 : t_array.get? 1 with
  | none =>
    have := List.get?_eq_none.mp h1
    omega
  | some t1 =>
    cases h0 : t_array.get? 0 with
    | none =>
      have := List.get?_eq_none.mp h0
      omega
    | some t0 =>
      unfold sim_ws_series_evalCalls
      rw [h1, h0]
      dsimp only
      have e1 : (initState t_array.length sim r p).rot_speed.getD 0 0 = r * rpm2RadSec :=
        getD_replicate_of_lt (by omega) _
      have e2 : (initState t_array.length sim r p).bld_pitch.getD 0 0 = p :=
        getD_replicate_of_lt (by omega) _
      rw [e1, e2, hsetup]
      rw [if_pos hws1]
      have : (none : Option ℚ).isNone = true := rfl
      rw [this]
      rw [runEvalCalls_interp]

/-- Replacing the evaluator leaves the declared arrays unchanged. -/
theorem initState_withEvaluator (n : ℕ) (sim : Sim) (g : ℚ → ℚ → ℚ → Option ℚ)
    (r p : ℚ) : initState n (withEvaluator sim g) r p = initState n sim r p := rfl

/-- With the always-raising evaluator the setup probe raises. -/
theorem setupEvalResult_withEvaluator_none (sim : Sim) (ws_array : List ℚ) (x y : ℚ) :
    setupEvalResult (withEvaluator sim (fun _ _ _ => none)) ws_array x y = none := by
  unfold setupEvalResult withEvaluator
  cases ws_array.get? 1 <;> rfl

/-- On the interpolated branch a loop iteration never consults the
evaluator: replacing it changes nothing. -/
theorem simStep_withEvaluator_interp (sim : Sim) (g : ℚ → ℚ → ℚ → Option ℚ) (dt : ℚ)
    (t_array ws_array : List ℚ) (st : LoopSt) (i : ℕ) :
    simStep (withEvaluator sim g) dt true t_array ws_array st i
      = simStep sim dt true t_array ws_array st i := by
  unfold simStep
  by_cases hi : i = 0
  · simp [hi]
  · rw [if_neg hi, if_neg hi]
    cases ws_array.get? i with
    | none => rfl
    | some w => rfl

/-- On the interpolated branch the whole loop never consults the
evaluator. -/
theorem runUpTo_withEvaluator_interp (sim : Sim) (g : ℚ → ℚ → ℚ → Option ℚ) (dt : ℚ)
    (t_array ws_array : List ℚ) (st0 : LoopSt) :
    ∀ k, runUpTo (withEvaluator sim g) dt true t_array ws_array st0 k
      = runUpTo sim dt true t_array ws_array st0 k := by
  intro k
  induction k with
  | zero => rfl
  | succ k ih =>
    unfold runUpTo
    rw [ih]
    cases runUpTo sim dt true t_array ws_array st0 k with
    | none => rfl
    | some st =>
      simp only [Option.some_bind]
      exact simStep_withEvaluator_interp sim g dt t_array ws_array st k

/-- If the setup probe raises, the whole run is unchanged when the
evaluator is replaced by one that always raises: after the probe the
evaluator is never consulted again. -/
theorem sim_ws_series_withEvaluator_none (sim : Sim) (t_array ws_array : List ℚ) (r p : ℚ)
    (hsetup : setupEvalResult sim ws_array (r * rpm2RadSec) p = none) :
    sim_ws_series (withEvaluator sim (fun _ _ _ => none)) t_array ws_array r p
      = sim_ws_series sim t_array ws_array r p := by
  unfold sim_ws_series
  cases h1 : t_array.get? 1 with
  | none => rfl
  | some t1 =>
    cases h0 : t_array.get? 0 with
    | none => rfl
    | some t0 =>
      dsimp only
      have hn2 : 2 ≤ t_array.length := by
        have := (List.get?_eq_some.mp h1).1
        omega
      rw [initState_withEvaluator]
      have e1 : (initState t_array.length sim r p).rot_speed.getD 0 0 = r * rpm2RadSec :=
        getD_replicate_of_lt (by omega) _
      have e2 : (initState t_array.length sim r p).bld_pitch.getD 0 0 = p :=
        getD_replicate_of_lt (by omega) _
      rw [e1, e2, hsetup, setupEvalResult_withEvaluator_none, Option.isNone_none,
        runUpTo_withEvaluator_interp]

/-- A loop iteration depends on the simulator object only through the
fields it reads. -/
theorem simStep_congr (s1 s2 : Sim)
    (h1 : s1.turbine.RotorRad = s2.turbine.RotorRad) (h2 : s1.turbine.Ng = s2.turbine.Ng)
    (h3 : s1.turbine.J = s2.turbine.J) (h4 : s1.turbine.rho = s2.turbine.rho)
    (h5 : s1.turbine.Cq_interp_surface = s2.turbine.Cq_interp_surface)
    (h6 : s1.turbine.cc_rotor_evaluate = s2.turbine.cc_rotor_evaluate)
    (hC : s1.controller_int = s2.controller_int)
    (hgb : s1.gb_eff = s2.gb_eff) (hge : s1.gen_eff = s2.gen_eff)
    (dt : ℚ) (ui : Bool) (t_array ws_array : List ℚ) (st : LoopSt) (i : ℕ) :
    simStep s1 dt ui t_array ws_array st i = simStep s2 dt ui t_array ws_array st i := by
  unfold simStep cq_at stepWrite
  simp only [h1, h2, h3, h4, h5, h6, hC, hgb, hge]

/-- The loop depends on the simulator object only through the fields it
reads. -/
theorem runUpTo_congr (s1 s2 : Sim)
    (h1 : s1.turbine.RotorRad = s2.turbine.RotorRad) (h2 : s1.turbine.Ng = s2.turbine.Ng)
    (h3 : s1.turbine.J = s2.turbine.J) (h4 : s1.turbine.rho = s2.turbine.rho)
    (h5 : s1.turbine.Cq_interp_surface = s2.turbine.Cq_interp_surface)
    (h6 : s1.turbine.cc_rotor_evaluate = s2.turbine.cc_rotor_evaluate)
    (hC : s1.controller_int = s2.controller_int)
    (hgb : s1.gb_eff = s2.gb_eff) (hge : s1.gen_eff = s2.gen_eff)
    (dt : ℚ) (ui : Bool) (t_array ws_array : List ℚ) (st0 : LoopSt) :
    ∀ k, runUpTo s1 dt ui t_array ws_array st0 k = runUpTo s2 dt ui t_array ws_array st0 k := by
  intro k
  induction k with
  | zero => rfl
  | succ k ih =>
    unfold runUpTo
    rw [ih]
    cases runUpTo s2 dt ui t_array ws_array st0 k with
    | none => rfl
    | some st =>
      simp only [Option.some_bind]
      exact simStep_congr s1 s2 h1 h2 h3 h4 h5 h6 hC hgb hge dt ui t_array ws_array st k

/-- The setup probe depends on the simulator object only through the
evaluator. -/
theorem setupEvalResult_congr (s1 s2 : Sim)
    (h6 : s1.turbine.cc_rotor_evaluate = s2.turbine.cc_rotor_evaluate)
    (ws_array : List ℚ) (x y : ℚ) :
    setupEvalResult s1 ws_array x y = setupEvalResult s2 ws_array x y := by
  unfold setupEvalResult
  cases ws_array.get? 1 with
  | none => rfl
  | some w => rw [h6]

/-- The declared arrays depend on the simulator object only through the
gearbox ratio. -/
theorem initState_congr (s1 s2 : Sim) (h2 : s1.turbine.Ng = s2.turbine.Ng)
    (n : ℕ) (r p : ℚ) : initState n s1 r p = initState n s2 r p := by
  unfold initState
  rw [h2]

/-- A whole run depends on the simulator object only through the fields
it reads: the two efficiencies stored on the turbine object are not
among them. -/
theorem sim_ws_series_congr (s1 s2 : Sim)
    (h1 : s1.turbine.RotorRad = s2.turbine.RotorRad) (h2 : s1.turbine.Ng = s2.turbine.Ng)
    (h3 : s1.turbine.J = s2.turbine.J) (h4 : s1.turbine.rho = s2.turbine.rho)
    (h5 : s1.turbine.Cq_interp_surface = s2.turbine.Cq_interp_surface)
    (h6 : s1.turbine.cc_rotor_evaluate = s2.turbine.cc_rotor_evaluate)
    (hC : s1.controller_int = s2.controller_int)
    (hgb : s1.gb_eff = s2.gb_eff) (hge : s1.gen_eff = s2.gen_eff)
    (t_array ws_array : List ℚ) (r p : ℚ) :
    sim_ws_series s1 t_array ws_array r p = sim_ws_series s2 t_array ws_array r p := by
  unfold sim_ws_series
  cases ht1 : t_array.get? 1 with
  | none => rfl
  | some t1 =>
    cases ht0 : t_array.get? 0 with
    | none => rfl
    | some t0 =>
      dsimp only
      rw [initState_congr s1 s2 h2, setupEvalResult_congr s1 s2 h6,
        runUpTo_congr s1 s2 h1 h2 h3 h4 h5 h6 hC hgb hge]

/-- The concrete run on wsA completes, with outA its record. -/
theorem outA_run : sim_ws_series simA tA wsA 10 0 = some outA := by
  show _ = some ((sim_ws_series simA tA wsA 10 0).getD default)
  exact eq_some_getD _ default
    (sim_ws_series_isSome_of_interp simA tA wsA 10 0 (by decide) (by decide) rfl)

/-- C1: the run records generator speeds that satisfy the gearbox
identity at every loop index, but index 0 is initialized without the
rpm-to-rad/s conversion, so the identity claimed for all indices fails
there: on the concrete run, gen_speed[0] = 970 (rpm times gearbox ratio)
while rot_speed[0] * Ng is about 101.6 rad/s, and the identity does hold
at index 1. -/
theorem c1_gen_speed_index0_mismatch :
    sim_ws_series simA tA wsA 10 0 = some outA ∧
    outA.gen_speed.getD 0 0 ≠ outA.rot_speed.getD 0 0 * simA.turbine.Ng ∧
    outA.gen_speed.getD 1 0 = outA.rot_speed.getD 1 0 * simA.turbine.Ng := by
  obtain ⟨hL, h0, hR, hT, hW⟩ := sim_ws_series_spec outA_run
  obtain ⟨hp0, hr0, hg0, ha0, hq0, hw0⟩ := h0
  obtain ⟨wsi, cq, hws, hcq, ha, hr, hg, hq, hb, hp⟩ := hR 1 le_rfl (by decide)
  refine ⟨outA_run, ?_, hg⟩
  show outA.gen_speed.getD 0 0 ≠ outA.rot_speed.getD 0 0 * simA.turbine.Ng
  have e1 : outA.gen_speed.getD 0 0 = 10 * simA.turbine.Ng := hg0
  have e2 : outA.rot_speed.getD 0 0 = 10 * rpm2RadSec := hr0
  rw [e1, e2]
  have : simA.turbine.Ng = 97 := rfl
  rw [this]
  norm_num [rpm2RadSec, np_pi]

/-- C2 counterexample: a run whose wind array contains a zero wind speed
does not abort: no InvalidInputError exists in the code, the loop reaches
the tip-speed-ratio division at the zero-wind step, and the run
completes. -/
theorem c2_zero_wind_counterexample :
    (sim_ws_series simA tA wsZ 10 0).isSome = true :=
  sim_ws_series_isSome_of_interp simA tA wsZ 10 0 (by decide) (by decide) rfl

/-- C2 amended: the code performs no input validation: for every run on
the interpolated branch whose arrays are long enough, even one whose
wind array contains a zero value, no error is raised before or at the
tip-speed-ratio computation and the run completes. -/
theorem c2_amended_no_zero_wind_validation (sim : Sim) (t_array ws_array : List ℚ)
    (r p : ℚ) (_hz : (0 : ℚ) ∈ ws_array) (h2 : 2 ≤ t_array.length)
    (hlen : t_array.length ≤ ws_array.length)
    (hsetup : useInterpolated sim ws_array r p = true) :
    (sim_ws_series sim t_array ws_array r p).isSome = true :=
  sim_ws_series_isSome_of_interp sim t_array ws_array r p h2 hlen hsetup

/-- C2 amended witness: the concrete zero-wind run. -/
theorem c2_amended_witness :
    (0 : ℚ) ∈ wsZ ∧ 2 ≤ tA.length ∧ tA.length ≤ wsZ.length ∧
    useInterpolated simA wsZ 10 0 = true ∧
    (sim_ws_series simA tA wsZ 10 0).isSome = true := by
  have hz : (0 : ℚ) ∈ wsZ := by norm_num [wsZ]
  exact ⟨hz, by decide, by decide, rfl,
    c2_amended_no_zero_wind_validation simA tA wsZ 10 0 hz (by decide) (by decide) rfl⟩

/-- C3: at every loop index i from 1 on, the rotor speed is the explicit
forward-Euler update of the previous rotor speed, with dt the single
scalar difference of the first two time samples, the current aerodynamic
torque scaled by the gearbox efficiency, and the generator torque
commanded at the previous step scaled by the gearbox ratio. -/
theorem c3_forward_euler_update (sim : Sim) (t_array ws_array : List ℚ) (r p : ℚ)
    (out : SimOut) (i : ℕ) (hrun : sim_ws_series sim t_array ws_array r p = some out)
    (h1 : 1 ≤ i) (hi : i < t_array.length) :
    out.rot_speed.getD i 0 = out.rot_speed.getD (i - 1) 0 +
      ((t_array.getD 1 0 - t_array.getD 0 0) / sim.turbine.J) *
        (out.aero_torque.getD i 0 * sim.gb_eff -
          sim.turbine.Ng * out.gen_torque.getD (i - 1) 0) := by
  obtain ⟨_, _, hR, _, _⟩ := sim_ws_series_spec hrun
  obtain ⟨wsi, cq, hws, hcq, ha, hr, hg, hq, hb, hp⟩ := hR i h1 hi
  exact hr

/-- C3 witness: the Euler update at index 1 of the concrete run. -/
theorem c3_witness :
    sim_ws_series simA tA wsA 10 0 = some outA ∧ 1 ≤ 1 ∧ 1 < tA.length ∧
    outA.rot_speed.getD 1 0 = outA.rot_speed.getD 0 0 +
      ((tA.getD 1 0 - tA.getD 0 0) / simA.turbine.J) *
        (outA.aero_torque.getD 1 0 * simA.gb_eff -
          simA.turbine.Ng * outA.gen_torque.getD 0 0) :=
  ⟨outA_run, le_rfl, by decide,
    c3_forward_euler_update simA tA wsA 10 0 outA 1 outA_run le_rfl (by decide)⟩

/-- C5: the one-step lag of the loop: at every index i from 1 on, the
torque coefficient behind the aerodynamic torque of step i is obtained
from the pitch commanded at step i - 1 (and the rotor speed of step
i - 1), and the controller at step i is invoked with the just-updated
generator and rotor speeds of step i together with the pitch of step
i - 1. -/
theorem c5_one_step_lag (sim : Sim) (t_array ws_array : List ℚ) (r p : ℚ)
    (out : SimOut) (i : ℕ) (hrun : sim_ws_series sim t_array ws_array r p = some out)
    (h1 : 1 ≤ i) (hi : i < t_array.length) :
    (∃ cq, cq_at sim (useInterpolated sim ws_array r p) (ws_array.getD i 0)
        (out.rot_speed.getD (i - 1) 0) (out.bld_pitch.getD (i - 1) 0) = some cq ∧
      out.aero_torque.getD i 0 = 0.5 * sim.turbine.rho * (np_pi * sim.turbine.RotorRad ^ 2) *
        cq * sim.turbine.RotorRad * ws_array.getD i 0 ^ 2) ∧
    out.gen_torque.getD i 0 = (sim.controller_int.call_controller (t_array.getD i 0)
      (t_array.getD 1 0 - t_array.getD 0 0) (out.bld_pitch.getD (i - 1) 0)
      (out.gen_speed.getD i 0) (out.rot_speed.getD i 0) (ws_array.getD i 0)).1 ∧
    out.bld_pitch.getD i 0 = (sim.controller_int.call_controller (t_array.getD i 0)
      (t_array.getD 1 0 - t_array.getD 0 0) (out.bld_pitch.getD (i - 1) 0)
      (out.gen_speed.getD i 0) (out.rot_speed.getD i 0) (ws_array.getD i 0)).2 := by
  obtain ⟨_, _, hR, _, _⟩ := sim_ws_series_spec hrun
  obtain ⟨wsi, cq, hws, hcq, ha, hr, hg, hq, hb, hp⟩ := hR i h1 hi
  have hwsd : ws_array.getD i 0 = wsi := by
    rw [List.getD_eq_getD_get?, hws, Option.getD_some]
  rw [hwsd]
  exact ⟨⟨cq, hcq, ha⟩, hq, hb⟩

/-- C5 witness: the lag at index 1 of the concrete run. -/
theorem c5_witness :
    sim_ws_series simA tA wsA 10 0 = some outA ∧ 1 ≤ 1 ∧ 1 < tA.length ∧
    ((∃ cq, cq_at simA (useInterpolated simA wsA 10 0) (wsA.getD 1 0)
        (outA.rot_speed.getD 0 0) (outA.bld_pitch.getD 0 0) = some cq ∧
      outA.aero_torque.getD 1 0 = 0.5 * simA.turbine.rho *
        (np_pi * simA.turbine.RotorRad ^ 2) * cq * simA.turbine.RotorRad *
        wsA.getD 1 0 ^ 2) ∧
    outA.gen_torque.getD 1 0 = (simA.controller_int.call_controller (tA.getD 1 0)
      (tA.getD 1 0 - tA.getD 0 0) (outA.bld_pitch.getD 0 0)
      (outA.gen_speed.getD 1 0) (outA.rot_speed.getD 1 0) (wsA.getD 1 0)).1 ∧
    outA.bld_pitch.getD 1 0 = (simA.controller_int.call_controller (tA.getD 1 0)
      (tA.getD 1 0 - tA.getD 0 0) (outA.bld_pitch.getD 0 0)
      (outA.gen_speed.getD 1 0) (outA.rot_speed.getD 1 0) (wsA.getD 1 0)).2) :=
  ⟨outA_run, le_rfl, by decide,
    c5_one_step_lag simA tA wsA 10 0 outA 1 outA_run le_rfl (by decide)⟩

/-- C6: index 0 of every saved series holds the value it was initialized
with before the loop: the initial pitch verbatim, the initial rotor
speed converted to rad/s, the initial rotor speed times the gearbox
ratio, and the constants 1000, 1 and 0; the loop never overwrites
them. -/
theorem c6_index0_holds_initials (sim : Sim) (t_array ws_array : List ℚ) (r p : ℚ)
    (out : SimOut) (hrun : sim_ws_series sim t_array ws_array r p = some out) :
    out.bld_pitch.getD 0 0 = p ∧
    out.rot_speed.getD 0 0 = r * rpm2RadSec ∧
    out.gen_speed.getD 0 0 = r * sim.turbine.Ng ∧
    out.aero_torque.getD 0 0 = 1000 ∧
    out.gen_torque.getD 0 0 = 1 ∧
    out.gen_power.getD 0 0 = 0 :=
  (sim_ws_series_spec hrun).2.1

/-- C6 witness: the initial values at index 0 of the concrete run. -/
theorem c6_witness :
    sim_ws_series simA tA wsA 10 0 = some outA ∧
    (outA.bld_pitch.getD 0 0 = 0 ∧
    outA.rot_speed.getD 0 0 = 10 * rpm2RadSec ∧
    outA.gen_speed.getD 0 0 = 10 * simA.turbine.Ng ∧
    outA.aero_torque.getD 0 0 = 1000 ∧
    outA.gen_torque.getD 0 0 = 1 ∧
    outA.gen_power.getD 0 0 = 0) :=
  ⟨outA_run, c6_index0_holds_initials simA tA wsA 10 0 outA outA_run⟩

/-- C7: every saved output series of a completed run has exactly the
length of the input time array. -/
theorem c7_series_lengths (sim : Sim) (t_array ws_array : List ℚ) (r p : ℚ)
    (out : SimOut) (hrun : sim_ws_series sim t_array ws_array r p = some out) :
    out.bld_pitch.length = t_array.length ∧
    out.rot_speed.length = t_array.length ∧
    out.gen_speed.length = t_array.length ∧
    out.aero_torque.length = t_array.length ∧
    out.gen_torque.length = t_array.length ∧
    out.gen_power.length = t_array.length :=
  (sim_ws_series_spec hrun).1

/-- C7 witness: the series lengths of the concrete run. -/
theorem c7_witness :
    sim_ws_series simA tA wsA 10 0 = some outA ∧
    (outA.bld_pitch.length = tA.length ∧
    outA.rot_speed.length = tA.length ∧
    outA.gen_speed.length = tA.length ∧
    outA.aero_torque.length = tA.length ∧
    outA.gen_torque.length = tA.length ∧
    outA.gen_power.length = tA.length) :=
  ⟨outA_run, c7_series_lengths simA tA wsA 10 0 outA outA_run⟩

/-- C8: at every loop index i from 1 on, the generator power is the
literal pinned formula: generator speed times np.pi / 30 times generator
torque times the generator efficiency, reproducing the pi / 30 factor
even though speeds are already stored in rad/s. -/
theorem c8_power_formula (sim : Sim) (t_array ws_array : List ℚ) (r p : ℚ)
    (out : SimOut) (i : ℕ) (hrun : sim_ws_series sim t_array ws_array r p = some out)
    (h1 : 1 ≤ i) (hi : i < t_array.length) :
    out.gen_power.getD i 0 = out.gen_speed.getD i 0 * np_pi / 30 *
      out.gen_torque.getD i 0 * sim.gen_eff := by
  obtain ⟨_, _, hR, _, _⟩ := sim_ws_series_spec hrun
  obtain ⟨wsi, cq, hws, hcq, ha, hr, hg, hq, hb, hp⟩ := hR i h1 hi
  exact hp

/-- C8 witness: the power formula at index 1 of the concrete run. -/
theorem c8_witness :
    sim_ws_series simA tA wsA 10 0 = some outA ∧ 1 ≤ 1 ∧ 1 < tA.length ∧
    outA.gen_power.getD 1 0 = outA.gen_speed.getD 1 0 * np_pi / 30 *
      outA.gen_torque.getD 1 0 * simA.gen_eff :=
  ⟨outA_run, le_rfl, by decide,
    c8_power_formula simA tA wsA 10 0 outA 1 outA_run le_rfl (by decide)⟩

/-- C9: the constructor hard-codes both efficiencies to 0.95, and a
whole run is unchanged when the gearbox and generator efficiencies
carried by the turbine object are replaced by arbitrary values: the
turbine efficiencies are never read. -/
theorem c9_hardcoded_efficiencies (tb : Turbine) (ctrl : ControllerInterface)
    (e1 e2 : ℚ) (t_array ws_array : List ℚ) (r p : ℚ) :
    (Sim.init tb ctrl).gb_eff = 0.95 ∧ (Sim.init tb ctrl).gen_eff = 0.95 ∧
    sim_ws_series (Sim.init { tb with gearbox_eff := e1, generator_eff := e2 } ctrl)
        t_array ws_array r p
      = sim_ws_series (Sim.init tb ctrl) t_array ws_array r p :=
  ⟨rfl, rfl, sim_ws_series_congr
    (Sim.init { tb with gearbox_eff := e1, generator_eff := e2 } ctrl)
    (Sim.init tb ctrl) rfl rfl rfl rfl rfl rfl rfl rfl rfl t_array ws_array r p⟩

/-- C10: the aerodynamic-torque series is initialized to 1000 at every
index and the generator-torque series to 1 at every index before the
loop runs, and the rotor-speed update at index 1 uses a previous
generator torque of exactly 1. -/
theorem c10_torque_initializations (sim : Sim) (n : ℕ) (t_array ws_array : List ℚ)
    (r p : ℚ) (out : SimOut) (hrun : sim_ws_series sim t_array ws_array r p = some out)
    (h1 : 1 < t_array.length) :
    (initState n sim r p).aero_torque = List.replicate n 1000 ∧
    (initState n sim r p).gen_torque = List.replicate n 1 ∧
    out.gen_torque.getD 0 0 = 1 ∧
    out.rot_speed.getD 1 0 = out.rot_speed.getD 0 0 +
      ((t_array.getD 1 0 - t_array.getD 0 0) / sim.turbine.J) *
        (out.aero_torque.getD 1 0 * sim.gb_eff - sim.turbine.Ng * 1) := by
  obtain ⟨_, h0, hR, _, _⟩ := sim_ws_series_spec hrun
  obtain ⟨_, _, _, _, hq0, _⟩ := h0
  obtain ⟨wsi, cq, hws, hcq, ha, hr, hg, hq, hb, hp⟩ := hR 1 le_rfl h1
  have hr2 : out.rot_speed.getD 1 0 = out.rot_speed.getD 0 0 +
      ((t_array.getD 1 0 - t_array.getD 0 0) / sim.turbine.J) *
        (out.aero_torque.getD 1 0 * sim.gb_eff -
          sim.turbine.Ng * out.gen_torque.getD 0 0) := hr
  have hq2 : out.gen_torque.getD 0 0 = 1 := hq0
  rw [hr2, hq2]
  exact ⟨rfl, rfl, rfl, rfl⟩

/-- C10 witness: on the concrete run the update at index 1 uses the
hard-coded previous generator torque 1. -/
theorem c10_witness :
    sim_ws_series simA tA wsA 10 0 = some outA ∧ 1 < tA.length ∧
    ((initState 3 simA 10 0).aero_torque = List.replicate 3 1000 ∧
    (initState 3 simA 10 0).gen_torque = List.replicate 3 1 ∧
    outA.gen_torque.getD 0 0 = 1 ∧
    outA.rot_speed.getD 1 0 = outA.rot_speed.getD 0 0 +
      ((tA.getD 1 0 - tA.getD 0 0) / simA.turbine.J) *
        (outA.aero_torque.getD 1 0 * simA.gb_eff - simA.turbine.Ng * 1)) :=
  ⟨outA_run, by decide,
    c10_torque_initializations simA 3 tA wsA 10 0 outA outA_run (by decide)⟩

/-- C4: when the setup probe of the evaluator is reached and raises, the
evaluator is attempted exactly once in the whole run (the probe itself:
the loop never re-attempts it), and the run is unchanged if the
evaluator is replaced by one that always raises: the interpolated
variant is used for every step and the variant choice is fixed for the
run. -/
theorem c4_evaluator_fallback_once (sim : Sim) (t_array ws_array : List ℚ) (r p : ℚ)
    (h2 : 2 ≤ t_array.length) (hws1 : (ws_array.get? 1).isSome = true)
    (hsetup : setupEvalResult sim ws_array (r * rpm2RadSec) p = none) :
    sim_ws_series_evalCalls sim t_array ws_array r p = 1 ∧
    sim_ws_series (withEvaluator sim (fun _ _ _ => none)) t_array ws_array r p
      = sim_ws_series sim t_array ws_array r p :=
  ⟨sim_ws_series_evalCalls_one sim t_array ws_array r p h2 hws1 hsetup,
   sim_ws_series_withEvaluator_none sim t_array ws_array r p hsetup⟩

/-- C4 witness: the concrete run, whose evaluator raises at the setup
probe. -/
theorem c4_witness :
    2 ≤ tA.length ∧ (wsA.get? 1).isSome = true ∧
    setupEvalResult simA wsA (10 * rpm2RadSec) 0 = none ∧
    sim_ws_series_evalCalls simA tA wsA 10 0 = 1 ∧
    sim_ws_series (withEvaluator simA (fun _ _ _ => none)) tA wsA 10 0
      = sim_ws_series simA tA wsA 10 0 := by
  obtain ⟨a, b⟩ := c4_evaluator_fallback_once simA tA wsA 10 0 (by decide) (by decide) rfl
  exact ⟨by decide, by decide, rfl, a, b⟩
